import Mathlib

/-!
Shallow embedding of the HAMi admission webhook decision function
(`pkg/scheduler/webhook.go`, `(*webhook).Handle`), together with proofs
about its decision policy.

The transport layer (request decoding, JSON marshalling, patch
construction) is plumbing around one decision function; we embed the
decision function itself.  Device resource matchers
(`device.MutateAdmission`) are external pluggable collaborators and are
modelled as abstract functions from a container and a pod to either a
recognition failure or a "found" boolean.
-/

namespace HAMi

/-- The constant `corev1.DefaultSchedulerName` from the Kubernetes API. -/
def DefaultSchedulerName : String := "default-scheduler"

/-- Container security context: only the field the webhook inspects
(`SecurityContext.Privileged`, a nilable boolean). -/
structure SecurityContext where
  privileged : Option Bool
deriving DecidableEq

/-- One container of the pod spec.  `resources` stands for the opaque
resource-request fields that matchers consume. -/
structure ContainerSpec where
  name : String
  securityContext : Option SecurityContext
  resources : List (String × String)
deriving DecidableEq

/-- The pod fields the webhook reads or writes: identifiers, the container
sequence, `spec.schedulerName` and `spec.nodeName`. -/
structure WorkloadSpec where
  ns : String
  name : String
  uid : String
  containers : List ContainerSpec
  schedulerName : String
  nodeName : String
deriving DecidableEq

/-- Process-wide configuration read by the webhook:
`config.SchedulerName` and `config.ForceOverwriteDefaultScheduler`. -/
structure PolicyConfig where
  targetSchedulerName : String
  forceOverwrite : Bool
deriving DecidableEq

/-- A device resource matcher (`MutateAdmission(c, pod)`): returns a
recognition failure or whether the container requests this vendor's
device class. -/
def Matcher : Type := ContainerSpec → WorkloadSpec → Except String Bool

/-- The decision the webhook returns, mirroring the four response
constructors used in `Handle`: `admission.Allowed(reason)` (early allow,
pod untouched), `PatchResponseFromRaw` (allow carrying the possibly
mutated pod), `admission.Denied(reason)`, `admission.Errored(cause)`. -/
inductive Decision where
  | allowed (reason : String)
  | patched (pod : WorkloadSpec)
  | denied (reason : String)
  | errored (cause : String)
deriving DecidableEq

/-- Holds (as `true`) exactly when the decision is `errored`. -/
def Decision.isErrored : Decision → Bool
  | .errored _ => true
  | _ => false

/-- The privileged-container test of lines 78-82: the security context is
present and its `Privileged` pointer is non-nil and true. -/
def isPrivileged (c : ContainerSpec) : Bool :=
  match c.securityContext with
  | some sc =>
      match sc.privileged with
      | some b => b
      | none => false
  | none => false

/-- The scheduler-name gate of lines 67-69, with Go operator precedence
(`&&` binds tighter than `||`):
`(S != "" && S != default) || (!force && (target == "" || S != target))`. -/
def schedGate (cfg : PolicyConfig) (pod : WorkloadSpec) : Bool :=
  (pod.schedulerName != "" && pod.schedulerName != DefaultSchedulerName) ||
    (!cfg.forceOverwrite &&
      (cfg.targetSchedulerName == "" || pod.schedulerName != cfg.targetSchedulerName))

/-- The inner matcher loop of lines 86-94: query every matcher in order on
one container; a failure aborts, otherwise accumulate
`hasResource := hasResource || found`. -/
def runMatchers (pod : WorkloadSpec) (c : ContainerSpec) (acc : Bool) :
    List Matcher → Except String Bool
  | [] => .ok acc
  | m :: rest =>
      match m c pod with
      | .error e => .error e
      | .ok found => runMatchers pod c (acc || found) rest

/-- The container loop of lines 75-95: skip privileged containers without
querying any matcher, otherwise run every matcher on the container. -/
def scanContainers (ms : List Matcher) (pod : WorkloadSpec) (acc : Bool) :
    List ContainerSpec → Except String Bool
  | [] => .ok acc
  | c :: rest =>
      if isPrivileged c then scanContainers ms pod acc rest
      else
        match runMatchers pod c acc ms with
        | .error e => .error e
        | .ok acc2 => scanContainers ms pod acc2 rest

/-- The decision core of `Handle` (lines 63-114).  JSON marshalling cannot
fail in the model, so the `SerializationFailure` branch is absent. -/
def Handle (cfg : PolicyConfig) (ms : List Matcher) (pod : WorkloadSpec) : Decision :=
  if pod.containers.isEmpty then .denied "pod has no containers"
  else if schedGate cfg pod then .allowed "pod already has different scheduler assigned"
  else
    match scanContainers ms pod false pod.containers with
    | .error e => .errored e
    | .ok hasResource =>
        if !hasResource then .patched pod
        else if cfg.targetSchedulerName != "" then
          let pod2 := { pod with schedulerName := cfg.targetSchedulerName }
          if pod2.nodeName != "" then .denied "pod has node assigned"
          else .patched pod2
        else .patched pod

/-- The spec's `eligible` predicate: scheduler name empty or the platform
default. -/
def eligible (pod : WorkloadSpec) : Prop :=
  pod.schedulerName = "" ∨ pod.schedulerName = DefaultSchedulerName

/-- The spec's `overrideable` predicate: overwrite forced, or the pod
already carries the configured target scheduler name. -/
def overrideable (cfg : PolicyConfig) (pod : WorkloadSpec) : Prop :=
  cfg.forceOverwrite = true ∨
    (cfg.targetSchedulerName ≠ "" ∧ pod.schedulerName = cfg.targetSchedulerName)

/-- A matcher that recognizes every container. -/
def mTrue : Matcher := fun _ _ => .ok true

/-- A matcher that recognizes no container. -/
def mFalse : Matcher := fun _ _ => .ok false

/-- A matcher that always reports a recognition failure. -/
def mBad : Matcher := fun _ _ => .error "malformed resource quantity"

/-- A plain unprivileged container requesting a vendor resource. -/
def ctrGpu : ContainerSpec :=
  { name := "main", securityContext := none, resources := [("nvidia.com/gpu", "1")] }

/-- A container whose privileged flag is explicitly true. -/
def ctrPriv : ContainerSpec :=
  { name := "priv", securityContext := some { privileged := some true },
    resources := [("nvidia.com/gpu", "1")] }

/-- A pod with one unprivileged GPU container, no scheduler name and no
node name. -/
def podPlain : WorkloadSpec :=
  { ns := "default", name := "gpu-pod", uid := "uid-1",
    containers := [ctrGpu], schedulerName := "", nodeName := "" }

/-- The usual configuration: target scheduler `hami-scheduler`, no forced
overwrite. -/
def cfgHami : PolicyConfig :=
  { targetSchedulerName := "hami-scheduler", forceOverwrite := false }

/-- The usual configuration with forced overwrite, so that pods with an
empty scheduler name pass the gate of lines 67-69. -/
def cfgForce : PolicyConfig :=
  { targetSchedulerName := "hami-scheduler", forceOverwrite := true }

end HAMi

namespace HAMi

theorem isEmpty_false_of_ne {α : Type} {l : List α} (h : l ≠ []) : l.isEmpty = false := by
  cases l with
  | nil => exact absurd rfl h
  | cons a t => rfl

theorem runMatchers_ok_of_all_ok :
    ∀ (ms : List Matcher) (pod : WorkloadSpec) (c : ContainerSpec) (acc : Bool),
      (∀ m ∈ ms, ∃ b, m c pod = .ok b) →
      ∃ r, runMatchers pod c acc ms = .ok r
  | [], _, _, acc, _ => ⟨acc, rfl⟩
  | m :: rest, pod, c, acc, hall => by
    obtain ⟨b, hb⟩ := hall m (List.mem_cons_self m rest)
    obtain ⟨r, hr⟩ := runMatchers_ok_of_all_ok rest pod c (acc || b)
      (fun m' h' => hall m' (List.mem_cons_of_mem m h'))
    exact ⟨r, by simp only [runMatchers, hb]; exact hr⟩

theorem runMatchers_acc_true :
    ∀ (ms : List Matcher) (pod : WorkloadSpec) (c : ContainerSpec),
      (∀ m ∈ ms, ∃ b, m c pod = .ok b) →
      runMatchers pod c true ms = .ok true
  | [], _, _, _ => rfl
  | m :: rest, pod, c, hall => by
    obtain ⟨b, hb⟩ := hall m (List.mem_cons_self m rest)
    simp only [runMatchers, hb, Bool.true_or]
    exact runMatchers_acc_true rest pod c (fun m' h' => hall m' (List.mem_cons_of_mem m h'))

theorem runMatchers_true_of_found :
    ∀ (ms : List Matcher) (pod : WorkloadSpec) (c : ContainerSpec) (acc : Bool)
      (m : Matcher), m ∈ ms → m c pod = .ok true →
      (∀ m' ∈ ms, ∃ b, m' c pod = .ok b) →
      runMatchers pod c acc ms = .ok true
  | m0 :: rest, pod, c, acc, m, hmem, hfound, hall => by
    obtain ⟨b0, hb0⟩ := hall m0 (List.mem_cons_self m0 rest)
    rcases List.mem_cons.mp hmem with rfl | hmem'
    · simp only [runMatchers, hfound, Bool.or_true]
      exact runMatchers_acc_true rest pod c
        (fun m' h' => hall m' (List.mem_cons_of_mem m h'))
    · simp only [runMatchers, hb0]
      exact runMatchers_true_of_found rest pod c (acc || b0) m hmem' hfound
        (fun m' h' => hall m' (List.mem_cons_of_mem m0 h'))

theorem runMatchers_error_of_mem :
    ∀ (ms : List Matcher) (pod : WorkloadSpec) (c : ContainerSpec) (acc : Bool)
      (m : Matcher) (e : String), m ∈ ms → m c pod = .error e →
      ∃ cause, runMatchers pod c acc ms = .error cause
  | m0 :: rest, pod, c, acc, m, e, hmem, herr => by
    cases hm0 : m0 c pod with
    | error e0 => exact ⟨e0, by simp only [runMatchers, hm0]⟩
    | ok b0 =>
      rcases List.mem_cons.mp hmem with rfl | hmem'
      · rw [herr] at hm0
        exact absurd hm0 (by simp)
      · obtain ⟨cause, hc⟩ := runMatchers_error_of_mem rest pod c (acc || b0) m e hmem' herr
        exact ⟨cause, by simp only [runMatchers, hm0]; exact hc⟩

theorem scanContainers_ok_of_all_ok (ms : List Matcher) (pod : WorkloadSpec) :
    ∀ (l : List ContainerSpec) (acc : Bool),
      (∀ c ∈ l, isPrivileged c = false → ∀ m ∈ ms, ∃ b, m c pod = .ok b) →
      ∃ r, scanContainers ms pod acc l = .ok r
  | [], acc, _ => ⟨acc, rfl⟩
  | c :: rest, acc, hall => by
    by_cases hp : isPrivileged c = true
    · obtain ⟨r, hr⟩ := scanContainers_ok_of_all_ok ms pod rest acc
        (fun c' h' => hall c' (List.mem_cons_of_mem c h'))
      exact ⟨r, by simp only [scanContainers, hp, if_true]; exact hr⟩
    · have hp' : isPrivileged c = false := by simpa using hp
      obtain ⟨r1, hr1⟩ := runMatchers_ok_of_all_ok ms pod c acc
        (hall c (List.mem_cons_self c rest) hp')
      obtain ⟨r, hr⟩ := scanContainers_ok_of_all_ok ms pod rest r1
        (fun c' h' => hall c' (List.mem_cons_of_mem c h'))
      exact ⟨r, by simp only [scanContainers, hp', hr1, Bool.false_eq_true, if_false]; exact hr⟩

theorem scanContainers_all_priv (ms : List Matcher) (pod : WorkloadSpec) :
    ∀ (l : List ContainerSpec) (acc : Bool),
      (∀ c ∈ l, isPrivileged c = true) →
      scanContainers ms pod acc l = .ok acc
  | [], _, _ => rfl
  | c :: rest, acc, hall => by
    have hp : isPrivileged c = true := hall c (List.mem_cons_self c rest)
    simp only [scanContainers, hp, if_true]
    exact scanContainers_all_priv ms pod rest acc
      (fun c' h' => hall c' (List.mem_cons_of_mem c h'))

theorem scanContainers_error_of_mem (ms : List Matcher) (pod : WorkloadSpec) :
    ∀ (l : List ContainerSpec) (acc : Bool) (c : ContainerSpec) (m : Matcher) (e : String),
      c ∈ l → isPrivileged c = false → m ∈ ms → m c pod = .error e →
      ∃ cause, scanContainers ms pod acc l = .error cause
  | c0 :: rest, acc, c, m, e, hcl, hcp, hm, herr => by
    by_cases hp0 : isPrivileged c0 = true
    · have hcr : c ∈ rest := by
        rcases List.mem_cons.mp hcl with rfl | h'
        · rw [hcp] at hp0; exact absurd hp0 (by simp)
        · exact h'
      obtain ⟨cause, hc⟩ := scanContainers_error_of_mem ms pod rest acc c m e hcr hcp hm herr
      exact ⟨cause, by simp only [scanContainers, hp0, if_true]; exact hc⟩
    · have hp0' : isPrivileged c0 = false := by simpa using hp0
      cases hr : runMatchers pod c0 acc ms with
      | error e1 =>
        exact ⟨e1, by simp only [scanContainers, hp0', Bool.false_eq_true, if_false, hr]⟩
      | ok acc2 =>
        have hcr : c ∈ rest := by
          rcases List.mem_cons.mp hcl with rfl | h'
          · obtain ⟨cause, hc⟩ := runMatchers_error_of_mem ms pod c acc m e hm herr
            rw [hr] at hc
            exact absurd hc (by simp)
          · exact h'
        obtain ⟨cause, hc⟩ := scanContainers_error_of_mem ms pod rest acc2 c m e hcr hcp hm herr
        exact ⟨cause, by simp only [scanContainers, hp0', Bool.false_eq_true, if_false, hr]; exact hc⟩

/-- Claim C5: a pod whose container sequence is empty is denied with
reason "pod has no containers", for every configuration and matcher
set. -/
theorem c5_empty_containers_denied (cfg : PolicyConfig) (ms : List Matcher)
    (pod : WorkloadSpec) (h : pod.containers = []) :
    Handle cfg ms pod = .denied "pod has no containers" := by
  simp [Handle, h]

/-- Witness for C5 at a concrete empty pod. -/
theorem c5_empty_containers_denied_witness :
    Handle cfgHami [mTrue]
        { ns := "default", name := "empty-pod", uid := "uid-0",
          containers := [], schedulerName := "", nodeName := "" }
      = .denied "pod has no containers" :=
  c5_empty_containers_denied cfgHami [mTrue] _ rfl

/-- Claim C1, behavior of the code at the failing input: a pod with one
unprivileged container, an empty scheduler name (hence `eligible` in the
spec's sense) and an unconfigured overwrite, under the usual
`hami-scheduler` target, is allowed unchanged with reason "pod already
has different scheduler assigned" instead of proceeding to resource
scanning — the `||` in the gate fires on `!force && S != target` even
though the scheduler name is empty. -/
theorem c1_code_behavior :
    Handle cfgHami [mTrue] podPlain
        = .allowed "pod already has different scheduler assigned"
      ∧ eligible podPlain := by
  constructor
  · rfl
  · exact Or.inl rfl

/-- Claim C3: when the scan completes with `hasResource = true`, the
target scheduler name is configured, and the original pod already has a
node name, the pod is denied with reason "pod has node assigned". -/
theorem c3_node_assigned_denied (cfg : PolicyConfig) (ms : List Matcher)
    (pod : WorkloadSpec) (hne : pod.containers ≠ [])
    (hgate : schedGate cfg pod = false)
    (hscan : scanContainers ms pod false pod.containers = .ok true)
    (htgt : cfg.targetSchedulerName ≠ "") (hnode : pod.nodeName ≠ "") :
    Handle cfg ms pod = .denied "pod has node assigned" := by
  simp [Handle, isEmpty_false_of_ne hne, hgate, hscan, bne_iff_ne, htgt, hnode]

/-- A pod with one unprivileged GPU container pre-bound to node-7. -/
def podNode : WorkloadSpec := { podPlain with nodeName := "node-7" }

/-- Witness for C3: under forced overwrite, a GPU pod pre-bound to a node
is denied. -/
theorem c3_node_assigned_denied_witness :
    Handle cfgForce [mTrue] podNode = .denied "pod has node assigned" :=
  c3_node_assigned_denied cfgForce [mTrue] podNode (by decide) rfl rfl
    (by decide) (by decide)

/-- Claim C4: if some matcher reports a recognition failure for some
non-privileged container of a pod that reaches resource scanning, the
whole evaluation returns an error decision, whatever the other
containers and matchers report. -/
theorem c4_matcher_failure_errors (cfg : PolicyConfig) (ms : List Matcher)
    (pod : WorkloadSpec) (c : ContainerSpec) (m : Matcher) (e : String)
    (hne : pod.containers ≠ []) (hgate : schedGate cfg pod = false)
    (hc : c ∈ pod.containers) (hpriv : isPrivileged c = false)
    (hm : m ∈ ms) (herr : m c pod = .error e) :
    (Handle cfg ms pod).isErrored = true := by
  obtain ⟨cause, hs⟩ :=
    scanContainers_error_of_mem ms pod pod.containers false c m e hc hpriv hm herr
  simp [Handle, isEmpty_false_of_ne hne, hgate, hs, Decision.isErrored]

/-- Witness for C4: a failing matcher alongside a succeeding one turns
the whole evaluation into an error. -/
theorem c4_matcher_failure_errors_witness :
    (Handle cfgForce [mTrue, mBad] podPlain).isErrored = true :=
  c4_matcher_failure_errors cfgForce [mTrue, mBad] podPlain ctrGpu mBad
    "malformed resource quantity" (by decide) rfl (by simp [podPlain]) rfl
    (by simp) rfl

/-- Claim C6: a pod that reaches resource scanning and whose containers
are all explicitly privileged never queries any matcher (the result is
the same for every matcher set), accumulates `hasResource = false`, and
is allowed unchanged. -/
theorem c6_all_privileged_allow_unchanged (cfg : PolicyConfig) (ms : List Matcher)
    (pod : WorkloadSpec) (hne : pod.containers ≠ [])
    (hgate : schedGate cfg pod = false)
    (hpriv : ∀ c ∈ pod.containers, isPrivileged c = true) :
    scanContainers ms pod false pod.containers = .ok false ∧
      Handle cfg ms pod = .patched pod := by
  have hs := scanContainers_all_priv ms pod pod.containers false hpriv
  exact ⟨hs, by simp [Handle, isEmpty_false_of_ne hne, hgate, hs]⟩

/-- A pod whose single container is explicitly privileged and requests a
GPU resource. -/
def podPriv : WorkloadSpec := { podPlain with containers := [ctrPriv] }

/-- Witness for C6: the all-privileged GPU pod is allowed unchanged even
though a matcher would recognize its resource request. -/
theorem c6_all_privileged_allow_unchanged_witness :
    scanContainers [mTrue] podPriv false podPriv.containers = .ok false ∧
      Handle cfgForce [mTrue] podPriv = .patched podPriv :=
  c6_all_privileged_allow_unchanged cfgForce [mTrue] podPriv (by decide) rfl
    (by intro c hc; simp [podPriv, podPlain] at hc; subst hc; rfl)

/-- Claim C7: when the scan completes without error and either finds no
resource or the target scheduler name is unconfigured, the pod is
allowed unchanged — the original scheduler name is preserved and nothing
is mutated. -/
theorem c7_no_resource_or_no_target_unchanged (cfg : PolicyConfig)
    (ms : List Matcher) (pod : WorkloadSpec) (b : Bool)
    (hne : pod.containers ≠ []) (hgate : schedGate cfg pod = false)
    (hscan : scanContainers ms pod false pod.containers = .ok b)
    (hcase : b = false ∨ cfg.targetSchedulerName = "") :
    Handle cfg ms pod = .patched pod := by
  rcases hcase with hb | ht
  · subst hb
    simp [Handle, isEmpty_false_of_ne hne, hgate, hscan]
  · cases b with
    | false => simp [Handle, isEmpty_false_of_ne hne, hgate, hscan]
    | true => simp [Handle, isEmpty_false_of_ne hne, hgate, hscan, ht]

/-- Witness for C7: a GPU pod whose only matcher finds nothing is allowed
unchanged with its scheduler name preserved. -/
theorem c7_no_resource_or_no_target_unchanged_witness :
    Handle cfgForce [mFalse] podPlain = .patched podPlain :=
  c7_no_resource_or_no_target_unchanged cfgForce [mFalse] podPlain false
    (by decide) rfl rfl (Or.inl rfl)

/-- Claim C9: frame invariant — whenever the evaluation returns a patched
pod, that pod agrees with the input on the identifiers, the container
sequence and the node name; only the scheduler name may differ. -/
theorem c9_frame_invariant (cfg : PolicyConfig) (ms : List Matcher)
    (pod q : WorkloadSpec) (h : Handle cfg ms pod = .patched q) :
    q.ns = pod.ns ∧ q.name = pod.name ∧ q.uid = pod.uid ∧
      q.containers = pod.containers ∧ q.nodeName = pod.nodeName := by
  by_cases hemp : pod.containers.isEmpty = true
  · simp [Handle, hemp] at h
  · by_cases hg : schedGate cfg pod = true
    · simp [Handle, hemp, hg] at h
    · cases hs : scanContainers ms pod false pod.containers with
      | error e => simp [Handle, hemp, hg, hs] at h
      | ok b =>
        cases b with
        | false =>
          simp [Handle, hemp, hg, hs] at h
          subst h
          exact ⟨rfl, rfl, rfl, rfl, rfl⟩
        | true =>
          by_cases ht : (cfg.targetSchedulerName != "") = true
          · by_cases hn : (pod.nodeName != "") = true
            · simp [Handle, hemp, hg, hs, ht, hn] at h
            · simp [Handle, hemp, hg, hs, ht, hn] at h
              subst h
              exact ⟨rfl, rfl, rfl, rfl, rfl⟩
          · simp [Handle, hemp, hg, hs, ht] at h
            subst h
            exact ⟨rfl, rfl, rfl, rfl, rfl⟩

/-- The plain GPU pod after rewriting its scheduler name to
`hami-scheduler`. -/
def podHami : WorkloadSpec := { podPlain with schedulerName := "hami-scheduler" }

/-- Witness for C9 at a run that actually mutates the pod. -/
theorem c9_frame_invariant_witness :
    podHami.ns = podPlain.ns ∧ podHami.name = podPlain.name ∧
      podHami.uid = podPlain.uid ∧ podHami.containers = podPlain.containers ∧
      podHami.nodeName = podPlain.nodeName :=
  c9_frame_invariant cfgForce [mTrue] podPlain podHami rfl

/-- Claim C10: a failure-inducing resource request on a privileged
container can never cause an error decision — if every matcher succeeds
on every non-privileged container, the evaluation never errors, whatever
the matchers would report on the privileged containers. -/
theorem c10_privileged_failure_harmless (cfg : PolicyConfig) (ms : List Matcher)
    (pod : WorkloadSpec)
    (hok : ∀ c ∈ pod.containers, isPrivileged c = false →
      ∀ m ∈ ms, ∃ b, m c pod = .ok b) :
    (Handle cfg ms pod).isErrored = false := by
  by_cases hemp : pod.containers.isEmpty = true
  · simp [Handle, hemp, Decision.isErrored]
  · by_cases hg : schedGate cfg pod = true
    · simp [Handle, hemp, hg, Decision.isErrored]
    · obtain ⟨r, hs⟩ := scanContainers_ok_of_all_ok ms pod pod.containers false hok
      cases r with
      | false => simp [Handle, hemp, hg, hs, Decision.isErrored]
      | true =>
        by_cases ht : (cfg.targetSchedulerName != "") = true
        · by_cases hn : (pod.nodeName != "") = true
          · simp [Handle, hemp, hg, hs, ht, hn, Decision.isErrored]
          · simp [Handle, hemp, hg, hs, ht, hn, Decision.isErrored]
        · simp [Handle, hemp, hg, hs, ht, Decision.isErrored]

/-- Witness for C10: the only matcher always fails, yet the pod whose
single container is privileged is not errored. -/
theorem c10_privileged_failure_harmless_witness :
    (Handle cfgForce [mBad] podPriv).isErrored = false :=
  c10_privileged_failure_harmless cfgForce [mBad] podPriv
    (by
      intro c hc hp
      simp [podPriv, podPlain] at hc
      subst hc
      simp [ctrPriv, isPrivileged] at hp)

/-- The plain GPU pod carrying a foreign scheduler name. -/
def podForeign : WorkloadSpec := { podPlain with schedulerName := "custom-other" }

/-- Counterexample to C2 as stated: a pod with one container recognized
by the matcher, `targetSchedulerName = "hami-scheduler"` and an empty
node name, but whose scheduler name is the foreign `custom-other` with
no forced overwrite, is allowed unchanged by the early scheduler gate —
not `Allow(mutated)` with the target scheduler name. -/
theorem c2_counterexample :
    Handle cfgHami [mTrue] podForeign
        = .allowed "pod already has different scheduler assigned" ∧
      Handle cfgHami [mTrue] podForeign
        ≠ .patched { podForeign with schedulerName := "hami-scheduler" } := by
  constructor
  · rfl
  · intro h
    exact Decision.noConfusion
      ((rfl : Handle cfgHami [mTrue] podForeign
          = .allowed "pod already has different scheduler assigned").symm.trans h)

/-- Claim C2 as amended: for a pod with one non-privileged container on
which every matcher succeeds and some matcher finds a vendor resource,
with `targetSchedulerName = "hami-scheduler"` and an empty node name —
provided the pod additionally passes the scheduler-name gate (its
scheduler name is empty or the platform default, and overwrite is
forced) — evaluation returns the mutated pod carrying scheduler name
`hami-scheduler`. -/
theorem c2_amended_mutates (cfg : PolicyConfig) (ms : List Matcher)
    (pod : WorkloadSpec) (c : ContainerSpec)
    (hctr : pod.containers = [c]) (hpriv : isPrivileged c = false)
    (hok : ∀ m ∈ ms, ∃ b, m c pod = .ok b)
    (hfound : ∃ m ∈ ms, m c pod = .ok true)
    (htgt : cfg.targetSchedulerName = "hami-scheduler")
    (hnode : pod.nodeName = "")
    (helig : pod.schedulerName = "" ∨ pod.schedulerName = DefaultSchedulerName)
    (hforce : cfg.forceOverwrite = true) :
    Handle cfg ms pod = .patched { pod with schedulerName := "hami-scheduler" } ∧
      { pod with schedulerName := "hami-scheduler" } ≠ pod := by
  obtain ⟨m, hm, hmtrue⟩ := hfound
  have hrun : runMatchers pod c false ms = .ok true :=
    runMatchers_true_of_found ms pod c false m hm hmtrue hok
  have hscan : scanContainers ms pod false pod.containers = .ok true := by
    rw [hctr]
    simp only [scanContainers, hpriv, Bool.false_eq_true, if_false, hrun]
  have hgate : schedGate cfg pod = false := by
    rcases helig with hs | hs <;>
      simp [schedGate, hs, hforce, DefaultSchedulerName]
  have hne : pod.containers ≠ [] := by rw [hctr]; exact List.cons_ne_nil c []
  constructor
  · simp [Handle, isEmpty_false_of_ne hne, hgate, hscan, htgt, hnode]
  · intro h
    have := congrArg WorkloadSpec.schedulerName h
    simp only at this
    rcases helig with hs | hs <;> rw [hs] at this <;> exact absurd this (by decide)

/-- Witness for the amended C2 at the plain GPU pod under forced
overwrite. -/
theorem c2_amended_mutates_witness :
    Handle cfgForce [mTrue] podPlain
        = .patched { podPlain with schedulerName := "hami-scheduler" } ∧
      { podPlain with schedulerName := "hami-scheduler" } ≠ podPlain :=
  c2_amended_mutates cfgForce [mTrue] podPlain ctrGpu rfl rfl
    (by
      intro m hm
      simp only [List.mem_singleton] at hm
      subst hm
      exact ⟨true, rfl⟩)
    ⟨mTrue, by simp, rfl⟩ rfl rfl (Or.inl rfl) rfl

theorem runMatchers_update_schedulerName :
    ∀ (ms : List Matcher),
      (∀ m ∈ ms, ∀ (c : ContainerSpec) (p : WorkloadSpec) (s : String),
        m c { p with schedulerName := s } = m c p) →
      ∀ (p : WorkloadSpec) (s : String) (c : ContainerSpec) (acc : Bool),
        runMatchers { p with schedulerName := s } c acc ms = runMatchers p c acc ms
  | [], _, _, _, _, _ => rfl
  | m :: rest, hind, p, s, c, acc => by
    have h1 : m c { p with schedulerName := s } = m c p :=
      hind m (List.mem_cons_self m rest) c p s
    simp only [runMatchers, h1]
    cases hm : m c p with
    | error e => rfl
    | ok b =>
      exact runMatchers_update_schedulerName rest
        (fun m' h' => hind m' (List.mem_cons_of_mem m h')) p s c (acc || b)

theorem scanContainers_update_schedulerName
    (ms : List Matcher)
    (hind : ∀ m ∈ ms, ∀ (c : ContainerSpec) (p : WorkloadSpec) (s : String),
      m c { p with schedulerName := s } = m c p)
    (p : WorkloadSpec) (s : String) :
    ∀ (l : List ContainerSpec) (acc : Bool),
      scanContainers ms { p with schedulerName := s } acc l = scanContainers ms p acc l
  | [], _ => rfl
  | c :: rest, acc => by
    by_cases hp : isPrivileged c = true
    · simp only [scanContainers, hp, if_true]
      exact scanContainers_update_schedulerName ms hind p s rest acc
    · have hp' : isPrivileged c = false := by simpa using hp
      simp only [scanContainers, hp', Bool.false_eq_true, if_false,
        runMatchers_update_schedulerName ms hind p s c acc]
      cases hr : runMatchers p c acc ms with
      | error e => rfl
      | ok acc2 => exact scanContainers_update_schedulerName ms hind p s rest acc2

/-- A matcher whose verdict depends on the pod's scheduler name: it
recognizes the container while the scheduler name is empty and fails
once it is not. -/
def mSched : Matcher := fun _ p =>
  if p.schedulerName == "" then .ok true else .error "scheduler-dependent failure"

/-- Configuration whose target scheduler name is the platform default,
with forced overwrite. -/
def cfgDef : PolicyConfig :=
  { targetSchedulerName := "default-scheduler", forceOverwrite := true }

/-- The plain GPU pod after rewriting its scheduler name to the platform
default. -/
def podDef : WorkloadSpec := { podPlain with schedulerName := "default-scheduler" }

/-- Counterexample to C8 as stated: with a matcher whose verdict depends
on the pod's scheduler name, one evaluation mutates the plain pod, and
re-evaluating the mutated output under the same configuration and
matcher set returns an error decision rather than an unchanged allow. -/
theorem c8_counterexample :
    Handle cfgDef [mSched] podPlain = .patched podDef ∧
      podDef ≠ podPlain ∧
      Handle cfgDef [mSched] podDef = .errored "scheduler-dependent failure" :=
  ⟨rfl, by decide, rfl⟩

/-- Claim C8 as amended: idempotence holds provided each matcher's
verdict does not depend on the pod's scheduler name.  If an evaluation
returns a patched pod different from its input, then the patched pod
carries the configured target scheduler name, and re-evaluating it with
the same configuration and matcher set allows it unchanged — either via
the early scheduler gate or via a patch that leaves it untouched. -/
theorem c8_idempotent (cfg : PolicyConfig) (ms : List Matcher)
    (pod q : WorkloadSpec)
    (hind : ∀ m ∈ ms, ∀ (c : ContainerSpec) (p : WorkloadSpec) (s : String),
      m c { p with schedulerName := s } = m c p)
    (hrun : Handle cfg ms pod = .patched q) (hmut : q ≠ pod) :
    q.schedulerName = cfg.targetSchedulerName ∧
      (Handle cfg ms q = .allowed "pod already has different scheduler assigned" ∨
        Handle cfg ms q = .patched q) := by
  by_cases hemp : pod.containers.isEmpty = true
  · simp [Handle, hemp] at hrun
  by_cases hg : schedGate cfg pod = true
  · simp [Handle, hemp, hg] at hrun
  cases hs : scanContainers ms pod false pod.containers with
  | error e => simp [Handle, hemp, hg, hs] at hrun
  | ok b =>
    cases b with
    | false =>
      simp [Handle, hemp, hg, hs] at hrun
      exact absurd hrun.symm hmut
    | true =>
      by_cases ht : (cfg.targetSchedulerName != "") = true
      · by_cases hn : (pod.nodeName != "") = true
        · simp [Handle, hemp, hg, hs, ht, hn] at hrun
        · have hn2 : (pod.nodeName != "") = false := by simpa using hn
          have hne : pod.containers ≠ [] := by
            intro hnil
            rw [hnil] at hemp
            exact hemp rfl
          have hemp2 : pod.containers.isEmpty = false := isEmpty_false_of_ne hne
          have hg2 : schedGate cfg pod = false := by simpa using hg
          simp [Handle, hemp2, hg2, hs, ht, hn2] at hrun
          subst hrun
          refine ⟨rfl, ?_⟩
          have htne : cfg.targetSchedulerName ≠ "" := bne_iff_ne.mp ht
          have hbeq : (cfg.targetSchedulerName == "") = false :=
            beq_eq_false_iff_ne.mpr htne
          have hgq : schedGate cfg { pod with schedulerName := cfg.targetSchedulerName }
              = (cfg.targetSchedulerName != DefaultSchedulerName) := by
            simp [schedGate, ht, hbeq, bne_self_eq_false]
          by_cases hd : (cfg.targetSchedulerName != DefaultSchedulerName) = true
          · left
            simp [Handle, isEmpty_false_of_ne hne, hgq, hd]
          · right
            have hd' : schedGate cfg { pod with schedulerName :=
                cfg.targetSchedulerName } = false := by
              rw [hgq]; simpa using hd
            have hscan2 : scanContainers ms
                { pod with schedulerName := cfg.targetSchedulerName }
                false pod.containers = .ok true :=
              (scanContainers_update_schedulerName ms hind pod
                cfg.targetSchedulerName pod.containers false).trans hs
            simp [Handle, isEmpty_false_of_ne hne, hd', hscan2, ht, hn2]
      · simp [Handle, hemp, hg, hs, ht] at hrun
        exact absurd hrun.symm hmut

/-- Witness for the amended C8: mutating the plain GPU pod to
`hami-scheduler` and re-evaluating leaves it unchanged. -/
theorem c8_idempotent_witness :
    podHami.schedulerName = cfgForce.targetSchedulerName ∧
      (Handle cfgForce [mTrue] podHami
          = .allowed "pod already has different scheduler assigned" ∨
        Handle cfgForce [mTrue] podHami = .patched podHami) :=
  c8_idempotent cfgForce [mTrue] podPlain podHami
    (by
      intro m hm c p s
      simp only [List.mem_singleton] at hm
      subst hm
      rfl)
    rfl (by decide)

end HAMi
